import Mathlib

/-!
Verification development for the insomnia-client template-resolution and
request-chaining engine.  The definitions below are shallow embeddings of
the TypeScript source:

* `src/utils/insomnia/template-resolver.ts` — the `{{ _.NAME }}` variable
  substitution engine (`resolve`, `extractVariableNames`);
* `src/utils/insomnia/environment.ts` — `InsomniaConfigEnvironment.getVariable`;
* the client's `resolveInheritedConfig` / `mergeHeaders` / final-authentication
  computation in `getRequestNode`;
* the modular response-template processor (per-client execution stacks,
  `shouldUseCache` / `shouldCacheResult`, `resolveResponseTemplate`,
  `processResponseForTemplate`, `extractJsonPath`);
* the in-memory cache driver's entry/ttl semantics.

Times and ttls are modelled as `Nat` milliseconds.  Recursion that the
source performs without a bound (template self-expansion, chained
pre-request execution) is modelled with an explicit fuel parameter: a
`none` result / an `outOfFuel` error for every fuel is how divergence of
the source shows up in the model.
-/

/-! ## Character classes of the template-variable pattern

The source matches template variables with the regular expression
`\{\{\s*_\.([a-zA-Z_][a-zA-Z0-9_]*)\s*\}\}` (ASCII letters, digits and
underscore; whitespace allowed after the opening and before the closing
braces).
-/

/-- Whitespace accepted by `\s` in the positions the resolver uses it
(space, tab, newline, carriage return). -/
def isSpaceChar (c : Char) : Bool :=
  c == ' ' || c == '\t' || c == '\n' || c == '\r'

/-- First character of a variable name: `[a-zA-Z_]`. -/
def isIdentStart (c : Char) : Bool :=
  c.isAlpha || c == '_'

/-- Later characters of a variable name: `[a-zA-Z0-9_]`. -/
def isIdentChar (c : Char) : Bool :=
  c.isAlphanum || c == '_'

/-- A string accepted by the capture group `[a-zA-Z_][a-zA-Z0-9_]*`. -/
def validIdent (s : String) : Bool :=
  match s.data with
  | [] => false
  | c :: rest => isIdentStart c && rest.all isIdentChar

/-- Consumes the two literal characters `a` then `b` at the head of the
list, returning the remainder. -/
def expect2 (a b : Char) (l : List Char) : Option (List Char) :=
  match l with
  | x :: y :: r => if x = a ∧ y = b then some r else none
  | _ => none

/-- Consumes the maximal run matching `[a-zA-Z_][a-zA-Z0-9_]*` at the head
of the list, returning the captured characters and the remainder. -/
def takeIdent1 (l : List Char) : Option (List Char × List Char) :=
  match l with
  | c :: r =>
    if isIdentStart c then some (c :: r.takeWhile isIdentChar, r.dropWhile isIdentChar)
    else none
  | [] => none

/-- Attempts to match the template-variable pattern at the head of the
character list, returning the captured variable name and the characters
after the match, exactly as the source regex does at one position. -/
def matchTemplateAt (cs : List Char) : Option (String × List Char) :=
  match cs with
  | c1 :: c2 :: r1 =>
    if c1 = '{' ∧ c2 = '{' then
      (expect2 '_' '.' (r1.dropWhile isSpaceChar)).bind (fun r2 =>
        (takeIdent1 r2).bind (fun p =>
          (expect2 '}' '}' (p.2.dropWhile isSpaceChar)).bind (fun r4 =>
            some (String.mk p.1, r4))))
    else none
  | _ => none

theorem dropWhile_length_le (p : Char → Bool) (l : List Char) :
    (l.dropWhile p).length ≤ l.length := by
  induction l with
  | nil => simp [List.dropWhile]
  | cons c rest ih =>
    by_cases h : p c
    · simp only [List.dropWhile, h]
      simp only [if_pos rfl] at *
      simp [List.length_cons]
      omega
    · simp [List.dropWhile, h]

theorem expect2_length {a b : Char} {l r : List Char}
    (h : expect2 a b l = some r) : r.length + 2 = l.length := by
  match l with
  | [] => simp [expect2] at h
  | [x] => simp [expect2] at h
  | x :: y :: t =>
    simp only [expect2] at h
    split at h
    · cases h; simp
    · exact absurd h (by simp)

theorem takeIdent1_length {l nm r : List Char}
    (h : takeIdent1 l = some (nm, r)) : r.length < l.length := by
  match l with
  | [] => simp [takeIdent1] at h
  | c :: t =>
    simp only [takeIdent1] at h
    split at h
    · simp only [Option.some.injEq, Prod.mk.injEq] at h
      obtain ⟨-, h2⟩ := h
      subst h2
      have := dropWhile_length_le isIdentChar t
      simp only [List.length_cons]
      omega
    · exact absurd h (by simp)

/-- A successful match consumes at least one character, so scanning past a
match terminates. -/
theorem matchTemplateAt_length {cs : List Char} {name : String}
    {rest : List Char} (h : matchTemplateAt cs = some (name, rest)) :
    rest.length < cs.length := by
  match cs with
  | [] => simp [matchTemplateAt] at h
  | [c1] => simp [matchTemplateAt] at h
  | c1 :: c2 :: r1 =>
    simp only [matchTemplateAt] at h
    split at h
    · cases hx1 : expect2 '_' '.' (r1.dropWhile isSpaceChar) with
      | none => rw [hx1] at h; exact absurd h (by simp)
      | some r2 =>
        rw [hx1] at h
        simp only [Option.some_bind] at h
        cases hx2 : takeIdent1 r2 with
        | none => rw [hx2] at h; exact absurd h (by simp)
        | some p =>
          rw [hx2] at h
          simp only [Option.some_bind] at h
          cases hx3 : expect2 '}' '}' (p.2.dropWhile isSpaceChar) with
          | none => rw [hx3] at h; exact absurd h (by simp)
          | some r4 =>
            rw [hx3] at h
            simp only [Option.some_bind, Option.some.injEq, Prod.mk.injEq] at h
            obtain ⟨-, h2⟩ := h
            subst h2
            have l1 := expect2_length hx1
            have l2 := takeIdent1_length (show takeIdent1 r2 = some (p.1, p.2) from by rw [hx2])
            have l3 := expect2_length hx3
            have l4 := dropWhile_length_le isSpaceChar r1
            have l5 := dropWhile_length_le isSpaceChar p.2
            simp only [List.length_cons]
            omega
    · exact absurd h (by simp)

/-! ## Environment (`InsomniaConfigEnvironment`)

`getVariable` gives overrides priority over the configuration's own data;
a `null`/`undefined` override value (modelled `none`) makes the variable
resolve to `undefined` even when the base data defines it. -/

/-- Environment backing the template resolver: base `data` plus `overrides`
(an override value of `none` models a `null`/`undefined` entry). -/
structure TemplateEnv where
  data : List (String × String)
  overrides : List (String × Option String)

/-- Association-list lookup used for both maps. -/
def envLookup (l : List (String × String)) (k : String) : Option String :=
  (l.find? (fun p => p.1 == k)).map (fun p => p.2)

/-- Model of `InsomniaConfigEnvironment.getVariable`: overrides first (a
present-but-null override yields `undefined`), then the base data. -/
def getVariable (env : TemplateEnv) (key : String) : Option String :=
  match env.overrides.find? (fun p => p.1 == key) with
  | some p => p.2
  | none => envLookup env.data key

/-- Model of `TemplateResolverOptions` after the constructor applies its
defaults (`strict ?? false`, `undefinedReplacement ?? ""`). -/
structure ResolverOptions where
  strict : Bool
  undefinedReplacement : String

/-- Options of a resolver constructed with no option argument. -/
def defaultOptions : ResolverOptions := { strict := false, undefinedReplacement := "" }

/-- Options of a resolver constructed with `strict: true`. -/
def strictOptions : ResolverOptions := { strict := true, undefinedReplacement := "" }

/-! ## The `resolve` scan

`resolve` replaces every match of the template pattern left to right; a
defined variable's value is recursively resolved by a nested `resolve`
call before being substituted (the replacement is not rescanned), an
undefined variable either throws (strict) or is replaced by
`undefinedReplacement || match` (lenient).  The source bounds neither the
nesting depth nor anything else, so the nested call is modelled with
fuel: every recursive call costs one unit, and `none` means the given
fuel did not suffice. -/

/-- Sequencing of two resolution steps: fuel exhaustion and a strict-mode
throw both short-circuit (a thrown error aborts the whole `replace`). -/
def exceptSeq (a : Option (Except String String))
    (k : String → Option (Except String String)) : Option (Except String String) :=
  match a with
  | none => none
  | some (Except.error e) => some (Except.error e)
  | some (Except.ok r) => k r

@[simp] theorem exceptSeq_none (k : String → Option (Except String String)) :
    exceptSeq none k = none := rfl

@[simp] theorem exceptSeq_error (e : String)
    (k : String → Option (Except String String)) :
    exceptSeq (some (Except.error e)) k = some (Except.error e) := rfl

@[simp] theorem exceptSeq_ok (r : String)
    (k : String → Option (Except String String)) :
    exceptSeq (some (Except.ok r)) k = k r := rfl

/-- Fuel-bounded model of the `resolve` scan over the template's
characters.  `some (.ok s)` is a normal return, `some (.error e)` a
strict-mode throw, `none` fuel exhaustion.  At a match the captured name
is looked up: a defined value is recursively resolved (one fuel unit),
an undefined one yields a throw in strict mode and
`undefinedReplacement || match` in lenient mode; the scan then continues
after the matched span, whose replacement is not rescanned. -/
def resolveCore (env : TemplateEnv) (opts : ResolverOptions) :
    Nat → List Char → Option (Except String String)
  | 0, _ => none
  | _ + 1, [] => some (.ok "")
  | fuel + 1, c :: cs =>
    (matchTemplateAt (c :: cs)).elim
      (exceptSeq (resolveCore env opts fuel cs) (fun tail =>
        some (.ok (String.singleton c ++ tail))))
      (fun m =>
        exceptSeq
          ((getVariable env m.1).elim
            (if opts.strict then
              some (.error ("Template variable not found: " ++ m.1))
             else
              some (.ok (if opts.undefinedReplacement = "" then
                String.mk ((c :: cs).take ((c :: cs).length - m.2.length))
                else opts.undefinedReplacement)))
            (fun v => resolveCore env opts fuel v.data))
          (fun r =>
            exceptSeq (resolveCore env opts fuel m.2) (fun tail =>
              some (.ok (r ++ tail)))))

/-- Model of `InsomniaTemplateResolver.resolve` (the falsy/non-string
early return only concerns the empty string, on which the scan agrees). -/
def resolve (env : TemplateEnv) (opts : ResolverOptions) (fuel : Nat)
    (template : String) : Option (Except String String) :=
  resolveCore env opts fuel template.data

/-! ## `extractVariableNames`

The source loops `regex.exec`, pushing every capture in match order; it
performs no de-duplication. -/

/-- Scan underlying `extractVariableNames`: at each position either take a
match (pushing its capture when non-empty, as the source's
`if (match[1])` does) or advance one character. -/
def extractVariableNamesL (cs : List Char) : List String :=
  match hm : matchTemplateAt cs with
  | some (name, rest) =>
    if name = "" then extractVariableNamesL rest
    else name :: extractVariableNamesL rest
  | none =>
    match cs with
    | [] => []
    | _ :: rest => extractVariableNamesL rest
termination_by cs.length
decreasing_by
  · exact matchTemplateAt_length hm
  · exact matchTemplateAt_length hm
  · simp

/-- Model of `InsomniaTemplateResolver.extractVariableNames`. -/
def extractVariableNames (s : String) : List String :=
  extractVariableNamesL s.data

/-! ## Canonical template spans -/

/-- Characters of the canonical template span for a variable
name, `{{ _.NAME }}` with single spaces. -/
def spanChars (name : String) : List Char :=
  '{' :: '{' :: ' ' :: '_' :: '.' :: (name.data ++ [' ', '}', '}'])

/-- The canonical template span as a string. -/
def span (name : String) : String := String.mk (spanChars name)

/-- Concatenation of canonical spans, as characters. -/
def concatSpans (names : List String) : List Char :=
  names.foldr (fun n acc => spanChars n ++ acc) []

theorem takeWhile_append_stop {p : Char → Bool} {l : List Char}
    (hl : l.all p = true) {x : Char} (hx : p x = false) (r : List Char) :
    ((l ++ x :: r).takeWhile p) = l := by
  induction l with
  | nil => simp [List.takeWhile, hx]
  | cons c t ih =>
    simp only [List.all_cons, Bool.and_eq_true] at hl
    simp [List.takeWhile, hl.1, ih hl.2]

theorem dropWhile_append_stop {p : Char → Bool} {l : List Char}
    (hl : l.all p = true) {x : Char} (hx : p x = false) (r : List Char) :
    ((l ++ x :: r).dropWhile p) = x :: r := by
  induction l with
  | nil => simp [List.dropWhile, hx]
  | cons c t ih =>
    simp only [List.all_cons, Bool.and_eq_true] at hl
    simp [List.dropWhile, hl.1, ih hl.2]

/-- The regex accepts the canonical span of any valid identifier, captures
exactly the identifier, and stops right after the closing braces. -/
theorem matchTemplateAt_span {name : String} (hv : validIdent name = true)
    (tail : List Char) :
    matchTemplateAt (spanChars name ++ tail) = some (name, tail) := by
  unfold validIdent at hv
  match hd : name.data with
  | [] => rw [hd] at hv; simp at hv
  | c :: crest =>
    rw [hd] at hv
    simp only [Bool.and_eq_true] at hv
    obtain ⟨hstart, hrest⟩ := hv
    have hni : isIdentChar ' ' = false := by decide
    have hs1 : isSpaceChar ' ' = true := by decide
    have hs2 : isSpaceChar '_' = false := by decide
    have hs3 : isSpaceChar '}' = false := by decide
    have hsp : spanChars name ++ tail
        = '{' :: '{' :: ' ' :: '_' :: '.' :: c :: (crest ++ ' ' :: '}' :: '}' :: tail) := by
      simp [spanChars, hd]
    rw [hsp]
    simp only [matchTemplateAt]
    rw [if_pos (by decide)]
    have d1 : (' ' :: '_' :: '.' :: c :: (crest ++ ' ' :: '}' :: '}' :: tail)).dropWhile isSpaceChar
        = '_' :: '.' :: c :: (crest ++ ' ' :: '}' :: '}' :: tail) := by
      simp [List.dropWhile, hs1, hs2]
    rw [d1]
    have d2 : expect2 '_' '.' ('_' :: '.' :: c :: (crest ++ ' ' :: '}' :: '}' :: tail))
        = some (c :: (crest ++ ' ' :: '}' :: '}' :: tail)) := by
      simp [expect2]
    rw [d2]
    simp only [Option.some_bind]
    have d3 : takeIdent1 (c :: (crest ++ ' ' :: '}' :: '}' :: tail))
        = some (c :: crest, ' ' :: '}' :: '}' :: tail) := by
      simp only [takeIdent1]
      rw [if_pos hstart]
      rw [takeWhile_append_stop hrest hni, dropWhile_append_stop hrest hni]
    rw [d3]
    simp only [Option.some_bind]
    have d4 : (' ' :: '}' :: '}' :: tail).dropWhile isSpaceChar = '}' :: '}' :: tail := by
      simp [List.dropWhile, hs1, hs3]
    rw [d4]
    have d5 : expect2 '}' '}' ('}' :: '}' :: tail) = some tail := by
      simp [expect2]
    rw [d5]
    simp only [Option.some_bind]
    rw [← hd]

theorem string_append_empty (s : String) : s ++ "" = s := by
  cases s with
  | mk data =>
    show String.mk (data ++ []) = String.mk data
    rw [List.append_nil]

/-- On the canonical span of an undefined variable, one scan step resolves
the whole template: strict mode throws the `Template variable not found`
error, lenient mode substitutes `undefinedReplacement || match`. -/
theorem resolve_span_undefined (env : TemplateEnv) (opts : ResolverOptions)
    (name : String) (f : Nat) (hv : validIdent name = true)
    (hu : getVariable env name = none) :
    resolve env opts (f + 2) (span name) =
      (if opts.strict then
        some (.error ("Template variable not found: " ++ name))
       else
        some (.ok (if opts.undefinedReplacement = "" then span name
                   else opts.undefinedReplacement))) := by
  have key : matchTemplateAt (spanChars name) = some (name, []) := by
    have := matchTemplateAt_span hv []
    rwa [List.append_nil] at this
  show resolveCore env opts ((f + 1) + 1) (spanChars name) = _
  rw [show spanChars name
      = '{' :: '{' :: (' ' :: '_' :: '.' :: (name.data ++ [' ', '}', '}'])) from rfl]
  simp only [resolveCore]
  rw [show ('{' :: '{' :: (' ' :: '_' :: '.' :: (name.data ++ [' ', '}', '}'])))
      = spanChars name from rfl]
  rw [key]
  simp only [Option.elim]
  rw [hu]
  simp only [Option.elim]
  by_cases hst : opts.strict
  · simp [hst]
  · simp only [hst, if_false, Bool.false_eq_true, exceptSeq_ok]
    have hnil : resolveCore env opts (f + 1) [] = some (.ok "") := rfl
    rw [hnil]
    simp only [exceptSeq_ok]
    rw [List.length_nil, Nat.sub_zero, List.take_length]
    by_cases hur : opts.undefinedReplacement = ""
    · simp only [hur, if_pos rfl]
      rw [show String.mk (spanChars name) = span name from rfl,
        string_append_empty]
    · simp only [if_neg hur]
      rw [string_append_empty]

/-- C7: For every environment and every valid variable name the
environment does not define, resolving the span `{{ _.NAME }}` in lenient
(default) mode returns the original span unmodified, and in strict mode
raises the error `Template variable not found: NAME`, which names the
variable. -/
theorem c7_undefined_variable (env : TemplateEnv) (name : String) (f : Nat)
    (hv : validIdent name = true) (hu : getVariable env name = none) :
    resolve env defaultOptions (f + 2) (span name) = some (.ok (span name)) ∧
    resolve env strictOptions (f + 2) (span name)
      = some (.error ("Template variable not found: " ++ name)) := by
  constructor
  · have h := resolve_span_undefined env defaultOptions name f hv hu
    simpa [defaultOptions] using h
  · have h := resolve_span_undefined env strictOptions name f hv hu
    simpa [strictOptions] using h

/-- Witness for C7 at the variable `MISSING` against an environment that
defines only `API_URL`. -/
theorem c7_witness :
    validIdent "MISSING" = true ∧
    getVariable (TemplateEnv.mk [("API_URL", "x")] []) "MISSING" = none ∧
    resolve (TemplateEnv.mk [("API_URL", "x")] []) defaultOptions (0 + 2)
      (span "MISSING") = some (.ok (span "MISSING")) ∧
    resolve (TemplateEnv.mk [("API_URL", "x")] []) strictOptions (0 + 2)
      (span "MISSING") = some (.error ("Template variable not found: " ++ "MISSING")) := by
  refine ⟨by decide, by decide, ?_, ?_⟩
  · exact (c7_undefined_variable (TemplateEnv.mk [("API_URL", "x")] [])
      "MISSING" 0 (by decide) (by decide)).1
  · exact (c7_undefined_variable (TemplateEnv.mk [("API_URL", "x")] [])
      "MISSING" 0 (by decide) (by decide)).2

/-! ## C4: self-referential variable

The environment below maps `SELF` to the very span `{{ _.SELF }}`; on it
`resolve` recurses into an identical call, so no recursion depth
suffices. -/

/-- Environment whose variable `SELF` maps to its own template span. -/
def selfEnv : TemplateEnv := TemplateEnv.mk [("SELF", span "SELF")] []

theorem resolveCore_self_diverges :
    ∀ fuel, resolveCore selfEnv defaultOptions fuel (spanChars "SELF") = none := by
  intro fuel
  induction fuel with
  | zero => rfl
  | succ f ih =>
    have step : resolveCore selfEnv defaultOptions (f + 1) (spanChars "SELF")
        = exceptSeq (resolveCore selfEnv defaultOptions f (spanChars "SELF"))
            (fun r => exceptSeq (resolveCore selfEnv defaultOptions f [])
              (fun tail => some (.ok (r ++ tail)))) := rfl
    rw [step, ih]
    rfl

/-- C4 (code bug): template resolution does not terminate on every input.
On the environment mapping `SELF` to the span `{{ _.SELF }}`, resolving
that span exhausts every recursion budget: the source neither stops on an
unchanged expansion nor bounds the depth, so `resolve` recurses into an
identical call forever (a stack overflow at runtime). -/
theorem c4_self_reference_diverges :
    ∀ fuel, resolve selfEnv defaultOptions fuel (span "SELF") = none := by
  intro fuel
  exact resolveCore_self_diverges fuel

/-! ## C8: `extractVariableNames` -/

theorem extractVariableNamesL_cons_match {cs : List Char} {nm : String}
    {rest : List Char} (h : matchTemplateAt cs = some (nm, rest))
    (hne : ¬ nm = "") :
    extractVariableNamesL cs = nm :: extractVariableNamesL rest := by
  rw [extractVariableNamesL.eq_def]
  split
  next nm2 rest2 heq =>
    rw [h] at heq
    simp only [Option.some.injEq, Prod.mk.injEq] at heq
    obtain ⟨h1, h2⟩ := heq
    subst h1
    subst h2
    rw [if_neg hne]
  next heq =>
    rw [h] at heq
    exact absurd heq (by simp)

theorem extractVariableNamesL_nil : extractVariableNamesL [] = [] := by
  rw [extractVariableNamesL.eq_def]
  split
  next heq => exact absurd heq (by simp [matchTemplateAt])
  next => rfl

/-- Scanning a concatenation of canonical spans yields exactly the listed
names, duplicates included, in textual order. -/
theorem extractVariableNamesL_concatSpans (names : List String)
    (h : ∀ n ∈ names, validIdent n = true) :
    extractVariableNamesL (concatSpans names) = names := by
  induction names with
  | nil => exact extractVariableNamesL_nil
  | cons n rest ih =>
    have hv : validIdent n = true := h n (List.mem_cons_self n rest)
    have hne : ¬ n = "" := by
      intro he
      subst he
      exact absurd hv (by decide)
    have hmatch : matchTemplateAt (concatSpans (n :: rest))
        = some (n, concatSpans rest) := by
      show matchTemplateAt (spanChars n ++ concatSpans rest) = _
      exact matchTemplateAt_span hv _
    rw [extractVariableNamesL_cons_match hmatch hne,
      ih (fun m hm => h m (List.mem_cons_of_mem n hm))]

/-- C8 counterexample: on `{{ _.A }}{{ _.A }}` the source returns
`["A", "A"]` — the claimed de-duplication does not happen. -/
theorem c8_counterexample :
    String.mk (concatSpans ["A", "A"])
      = "\x7b\x7b _.A \x7d\x7d\x7b\x7b _.A \x7d\x7d" ∧
    extractVariableNames (String.mk (concatSpans ["A", "A"])) = ["A", "A"] ∧
    ¬ extractVariableNames (String.mk (concatSpans ["A", "A"])) = ["A"] := by
  have h : extractVariableNames (String.mk (concatSpans ["A", "A"]))
      = ["A", "A"] := extractVariableNamesL_concatSpans ["A", "A"] (by decide)
  refine ⟨by decide, h, ?_⟩
  rw [h]
  decide

/-- C8 (amended): `extractVariableNames` returns the variable names of all
matches in their textual order, retaining duplicates (no de-duplication is
performed). -/
theorem c8_extract_names_amended (names : List String)
    (h : ∀ n ∈ names, validIdent n = true) :
    extractVariableNames (String.mk (concatSpans names)) = names :=
  extractVariableNamesL_concatSpans names h

/-- Witness for C8 (amended) on a three-span template with a repeated
name. -/
theorem c8_amended_witness :
    (∀ n ∈ ["API_URL", "VERSION", "API_URL"], validIdent n = true) ∧
    extractVariableNames (String.mk (concatSpans ["API_URL", "VERSION", "API_URL"]))
      = ["API_URL", "VERSION", "API_URL"] :=
  ⟨by decide, c8_extract_names_amended ["API_URL", "VERSION", "API_URL"] (by decide)⟩

/-! ## Header and authentication inheritance (`getRequestNode`)

`resolveInheritedConfig` walks the ancestor folders root-to-leaf,
collecting every non-disabled header with a truthy name and value, and
keeping the authentication of the last (deepest) folder that defines a
non-disabled authentication; `getRequestNode` then merges headers with
`mergeHeaders` and picks the final authentication.  Template resolution
of the inherited strings is abstracted by a function `res`. -/

/-- A header record (`name`/`value` may be absent; in the source an empty
string is falsy and treated like an absent one where truthiness is
checked). -/
structure SHeader where
  name : Option String
  value : Option String
  disabled : Bool
deriving DecidableEq

/-- Raw authentication block (`InsomniaConfigAuthentication`). -/
structure SAuth where
  type : String
  token : Option String
  username : Option String
  password : Option String
deriving DecidableEq

/-- Model of `InsomniaConfigAuthentication.isDisabled`. -/
def SAuth.isDisabled (a : SAuth) : Bool := a.type == "none"

/-- The resolved authentication record `getRequestNode` builds. -/
structure RAuth where
  type : String
  token : Option String
  username : Option String
  password : Option String
  disabled : Bool
deriving DecidableEq

/-- A folder's inheritable configuration. -/
structure FolderData where
  headers : List SHeader
  authentication : Option SAuth
deriving DecidableEq

/-- Resolves one optional authentication field the way
`resolveInheritedConfig` does: a truthy value is template-resolved, an
absent or empty one becomes `undefined`. -/
def optResolve (res : String → String) (o : Option String) : Option String :=
  match o with
  | some t => if t = "" then none else some (res t)
  | none => none

/-- The inherited-authentication record built from a folder's block. -/
def resolveFolderAuth (res : String → String) (a : SAuth) : RAuth :=
  { type := a.type
    token := optResolve res a.token
    username := optResolve res a.username
    password := optResolve res a.password
    disabled := a.isDisabled }

/-- Model of the authentication part of `resolveInheritedConfig`: iterate
root-to-leaf, overwriting with every folder that defines a non-disabled
authentication block. -/
def resolveInheritedAuth (res : String → String) (parents : List FolderData) :
    Option RAuth :=
  parents.foldl
    (fun acc folder =>
      match folder.authentication with
      | some a => if a.isDisabled then acc else some (resolveFolderAuth res a)
      | none => acc)
    none

/-- Model of the header part of `resolveInheritedConfig`: collect, in
folder order, every non-disabled header with truthy name and value,
resolving both strings. -/
def resolveInheritedHeaders (res : String → String)
    (parents : List FolderData) : List SHeader :=
  parents.foldl
    (fun acc folder =>
      acc ++ folder.headers.filterMap (fun h =>
        match h.name, h.value with
        | some n, some v =>
          if h.disabled = false ∧ n ≠ "" ∧ v ≠ "" then
            some { name := some (res n), value := some (res v), disabled := h.disabled }
          else none
        | _, _ => none))
    []

/-- Model of the final-authentication choice in `getRequestNode`: the
request's own block whenever it is defined (its raw fields copied and its
`disabled` flag computed), otherwise the inherited one. -/
def finalAuthentication (res : String → String) (reqAuth : Option SAuth)
    (parents : List FolderData) : Option RAuth :=
  match reqAuth with
  | some a =>
    some { type := a.type, token := a.token, username := a.username,
           password := a.password, disabled := a.isDisabled }
  | none => resolveInheritedAuth res parents

/-- ASCII model of `toLowerCase`, character by character (kernel-reducible,
unlike `String.toLower`). -/
def strToLower (s : String) : String :=
  String.mk (s.data.map Char.toLower)

/-- Truthiness of a header's name, as tested by `if (header.name)`. -/
def headerNameTruthy (h : SHeader) : Bool :=
  match h.name with
  | some n => n ≠ ""
  | none => false

/-- Lower-cased names of the request's truthy-named headers — the
`requestHeaderNames` set in `mergeHeaders`. -/
def requestHeaderNames (request : List SHeader) : List String :=
  request.filterMap (fun h =>
    match h.name with
    | some n => if n = "" then none else some (strToLower n)
    | none => none)

/-- Model of `mergeHeaders`: request headers with truthy names first, then
the inherited headers whose lower-cased name does not collide with any
request header name. -/
def mergeHeaders (inherited request : List SHeader) : List SHeader :=
  request.filter headerNameTruthy ++
  inherited.filter (fun h =>
    match h.name with
    | some n => n ≠ "" && !((requestHeaderNames request).contains (strToLower n))
    | none => false)

/-- A folder that contributes inherited authentication: it defines a
non-disabled block. -/
def deepestAuthPred (f : FolderData) : Bool :=
  match f.authentication with
  | some a => !a.isDisabled
  | none => false

theorem resolveInheritedAuth_append (res : String → String)
    (l : List FolderData) (x : FolderData) :
    resolveInheritedAuth res (l ++ [x]) =
      match x.authentication with
      | some a =>
        if a.isDisabled then resolveInheritedAuth res l
        else some (resolveFolderAuth res a)
      | none => resolveInheritedAuth res l := by
  unfold resolveInheritedAuth
  rw [List.foldl_append]
  rfl

/-- The root-to-leaf overwrite keeps exactly the deepest folder that
defines a non-disabled authentication block. -/
theorem resolveInheritedAuth_deepest (res : String → String)
    (parents : List FolderData) :
    resolveInheritedAuth res parents =
      match parents.reverse.find? deepestAuthPred with
      | some f => f.authentication.map (resolveFolderAuth res)
      | none => none := by
  induction parents using List.reverseRecOn with
  | nil => rfl
  | append_singleton l x ih =>
    rw [resolveInheritedAuth_append, List.reverse_append]
    simp only [List.reverse_cons, List.reverse_nil, List.nil_append,
      List.singleton_append, List.find?_cons]
    cases hx : x.authentication with
    | none =>
      have : deepestAuthPred x = false := by simp [deepestAuthPred, hx]
      rw [this, ih]
    | some a =>
      by_cases hd : a.isDisabled
      · have hp : deepestAuthPred x = false := by simp [deepestAuthPred, hx, hd]
        simp [hp, hd, ih]
      · have hb : a.isDisabled = false := by
          cases hval : a.isDisabled
          · rfl
          · exact absurd hval hd
        have hp : deepestAuthPred x = true := by simp [deepestAuthPred, hx, hb]
        simp [hp, hb, hx]

/-- The final-authentication rule exactly as the specification claims it:
a defined but disabled request block is skipped in favour of the
inherited authentication. -/
def specFinalAuthentication (res : String → String) (reqAuth : Option SAuth)
    (parents : List FolderData) : Option RAuth :=
  match reqAuth with
  | some a =>
    if a.isDisabled then resolveInheritedAuth res parents
    else
      some { type := a.type, token := a.token, username := a.username,
             password := a.password, disabled := a.isDisabled }
  | none => resolveInheritedAuth res parents

/-- C5 counterexample: a request whose own authentication block has type
`none` (disabled) under a folder with non-disabled basic authentication.
The source keeps the request's own disabled block; the claim demands the
folder's basic authentication. -/
theorem c5_counterexample :
    finalAuthentication (fun s => s) (some (SAuth.mk "none" none none none))
        [FolderData.mk [] (some (SAuth.mk "basic" none (some "alice") (some "secret")))]
      = some (RAuth.mk "none" none none none true) ∧
    specFinalAuthentication (fun s => s) (some (SAuth.mk "none" none none none))
        [FolderData.mk [] (some (SAuth.mk "basic" none (some "alice") (some "secret")))]
      = some (RAuth.mk "basic" none (some "alice") (some "secret") false) ∧
    ¬ finalAuthentication (fun s => s) (some (SAuth.mk "none" none none none))
        [FolderData.mk [] (some (SAuth.mk "basic" none (some "alice") (some "secret")))]
      = specFinalAuthentication (fun s => s) (some (SAuth.mk "none" none none none))
        [FolderData.mk [] (some (SAuth.mk "basic" none (some "alice") (some "secret")))] := by
  refine ⟨by decide, by decide, by decide⟩

/-- C5 (amended): the final authentication is the request's own block
whenever one is defined — even a disabled one, whose `disabled` flag is
carried along — and only for a request without any own block the deepest
ancestor folder defining a non-disabled authentication block; absent when
no such folder exists either. -/
theorem c5_final_auth_amended (res : String → String) (reqAuth : Option SAuth)
    (parents : List FolderData) :
    (∀ a, reqAuth = some a →
      finalAuthentication res reqAuth parents
        = some (RAuth.mk a.type a.token a.username a.password a.isDisabled)) ∧
    (reqAuth = none →
      finalAuthentication res reqAuth parents = resolveInheritedAuth res parents) ∧
    (resolveInheritedAuth res parents
      = match parents.reverse.find? deepestAuthPred with
        | some f => f.authentication.map (resolveFolderAuth res)
        | none => none) := by
  refine ⟨?_, ?_, resolveInheritedAuth_deepest res parents⟩
  · intro a ha
    subst ha
    rfl
  · intro ha
    subst ha
    rfl

/-- Witness for C5 (amended): a request with its own bearer block keeps
it; a request without one under `[outer(basic), inner(none)]` inherits
the deepest non-disabled block, the outer basic one. -/
theorem c5_witness :
    finalAuthentication (fun s => s)
        (some (SAuth.mk "bearer" (some "tok") none none)) []
      = some (RAuth.mk "bearer" (some "tok") none none false) ∧
    finalAuthentication (fun s => s) none
        [FolderData.mk [] (some (SAuth.mk "basic" none (some "u") (some "p"))),
         FolderData.mk [] (some (SAuth.mk "none" none none none))]
      = some (RAuth.mk "basic" none (some "u") (some "p") false) := by
  constructor
  · exact (c5_final_auth_amended (fun s => s)
      (some (SAuth.mk "bearer" (some "tok") none none)) []).1
      (SAuth.mk "bearer" (some "tok") none none) rfl
  · have h := (c5_final_auth_amended (fun s => s) none
      [FolderData.mk [] (some (SAuth.mk "basic" none (some "u") (some "p"))),
       FolderData.mk [] (some (SAuth.mk "none" none none none))]).2.1 rfl
    rw [h]
    decide

theorem contains_eq_true_iff (l : List String) (x : String) :
    (l.contains x = true) ↔ x ∈ l := List.elem_iff

theorem contains_eq_false_iff (l : List String) (x : String) :
    (l.contains x = false) ↔ ¬ x ∈ l := by
  rw [← contains_eq_true_iff l x]
  cases l.contains x <;> simp

theorem requestHeaderNames_mem {request : List SHeader} {x : String} :
    x ∈ requestHeaderNames request ↔
      ∃ r ∈ request, ∃ m, r.name = some m ∧ ¬ m = "" ∧ strToLower m = x := by
  unfold requestHeaderNames
  rw [List.mem_filterMap]
  constructor
  · rintro ⟨r, hr, hf⟩
    cases hn : r.name with
    | none => simp [hn] at hf
    | some m =>
      by_cases hm : m = ""
      · simp [hn, hm] at hf
      · simp only [hn, if_neg hm] at hf
        simp only [Option.some.injEq] at hf
        exact ⟨r, hr, m, hn, hm, hf⟩
  · rintro ⟨r, hr, m, hn, hm, hx⟩
    refine ⟨r, hr, ?_⟩
    simp [hn, hm, hx]

/-- C6: merged headers are the request's truthy-named headers followed by
exactly the inherited headers whose name does not collide
case-insensitively with any request header name; a colliding inherited
header never appears in the appended part. -/
theorem c6_header_merge (inherited request : List SHeader) :
    (∀ h ∈ request, headerNameTruthy h = true → h ∈ mergeHeaders inherited request) ∧
    (∃ tail,
      mergeHeaders inherited request = request.filter headerNameTruthy ++ tail ∧
      (∀ h ∈ tail, h ∈ inherited) ∧
      (∀ h ∈ tail, ∀ n, h.name = some n →
        ∀ r ∈ request, ∀ m, r.name = some m → ¬ m = "" → ¬ strToLower m = strToLower n) ∧
      (∀ a ∈ inherited, ∀ n, a.name = some n →
        (∃ r ∈ request, ∃ m, r.name = some m ∧ ¬ m = "" ∧ strToLower m = strToLower n) →
        a ∉ tail)) := by
  constructor
  · intro h hh ht
    exact List.mem_append_left _ (List.mem_filter.mpr ⟨hh, ht⟩)
  · refine ⟨inherited.filter (fun h =>
      match h.name with
      | some n => n ≠ "" && !((requestHeaderNames request).contains (strToLower n))
      | none => false), rfl, ?_, ?_, ?_⟩
    · intro h hh
      exact (List.mem_filter.mp hh).1
    · intro h hh n hn r hr m hm hme heq
      have hp := (List.mem_filter.mp hh).2
      simp only [hn, Bool.and_eq_true, Bool.not_eq_true'] at hp
      have hmem : strToLower n ∈ requestHeaderNames request :=
        requestHeaderNames_mem.mpr ⟨r, hr, m, hm, hme, heq⟩
      exact absurd hmem ((contains_eq_false_iff _ _).mp hp.2)
    · intro a ha n hn hex hmem
      have hp := (List.mem_filter.mp hmem).2
      simp only [hn, Bool.and_eq_true, Bool.not_eq_true'] at hp
      obtain ⟨r, hr, m, hm, hme, heq⟩ := hex
      have hm2 : strToLower n ∈ requestHeaderNames request :=
        requestHeaderNames_mem.mpr ⟨r, hr, m, hm, hme, heq⟩
      exact absurd hm2 ((contains_eq_false_iff _ _).mp hp.2)

/-- Witness for C6 on the specification's scenario: folder header `A:1`,
request headers `A:2` and `B:3`; the merge keeps the request's `A` and
`B` and drops the inherited `A`. -/
theorem c6_witness :
    mergeHeaders [SHeader.mk (some "A") (some "1") false]
        [SHeader.mk (some "A") (some "2") false, SHeader.mk (some "B") (some "3") false]
      = [SHeader.mk (some "A") (some "2") false, SHeader.mk (some "B") (some "3") false] ∧
    SHeader.mk (some "A") (some "2") false ∈
      mergeHeaders [SHeader.mk (some "A") (some "1") false]
        [SHeader.mk (some "A") (some "2") false, SHeader.mk (some "B") (some "3") false] := by
  constructor
  · decide
  · exact (c6_header_merge [SHeader.mk (some "A") (some "1") false]
      [SHeader.mk (some "A") (some "2") false, SHeader.mk (some "B") (some "3") false]).1
      (SHeader.mk (some "A") (some "2") false) (by decide) (by decide)

/-! ## JavaScript values and JSONPath extraction (`extractJsonPath`)

`JSON.parse` and the regex-based XPath helper are external collaborators
of the extraction code; they enter the model as oracle parameters of the
chain environment.  `jsToString` models `String(v)` on the value shapes
the extractor produces (ASCII, no nested-array corner cases, which the
verified paths never build). -/

/-- A JavaScript value as the extractor sees it (`undefined` is modelled
by `Option.none` around `JsValue`). -/
inductive JsValue where
  | str (s : String)
  | num (n : Int)
  | bool (b : Bool)
  | null
  | obj (fields : List (String × JsValue))
  | arr (elems : List JsValue)

/-- JavaScript truthiness of a defined value. -/
def jsTruthy : JsValue → Bool
  | .str s => s ≠ ""
  | .num n => n ≠ 0
  | .bool b => b
  | .null => false
  | .obj _ => true
  | .arr _ => true

mutual

/-- Model of `String(v)` for a defined value. -/
def jsToString : JsValue → String
  | .str s => s
  | .num n => toString n
  | .bool b => if b then "true" else "false"
  | .null => "null"
  | .obj _ => "[object Object]"
  | .arr elems => String.intercalate "," (jsToStringList elems)

/-- Element-wise stringification backing the array case. -/
def jsToStringList : List JsValue → List String
  | [] => []
  | v :: rest => jsToString v :: jsToStringList rest

end

/-- The final stringification of `processResponseForTemplate`:
`extractedValue !== undefined ? String(extractedValue) : ""`. -/
def stringifyExtract : Option JsValue → String
  | some v => jsToString v
  | none => ""

/-- Model of `path.replace(/^\$?\.?/, "")`: strip one optional `$`, then
one optional `.`. -/
def cleanPath (p : String) : String :=
  String.mk
    (match p.data with
     | '$' :: rest =>
       match rest with
       | '.' :: r2 => r2
       | _ => rest
     | '.' :: rest => rest
     | l => l)

/-- Splitting accumulator for `split(".")`. -/
def splitDotAux : List Char → List Char → List String
  | acc, [] => [String.mk acc.reverse]
  | acc, c :: rest =>
    if c = '.' then String.mk acc.reverse :: splitDotAux [] rest
    else splitDotAux (c :: acc) rest

/-- Model of `String.prototype.split(".")` (kernel-reducible). -/
def splitOnDot (s : String) : List String := splitDotAux [] s.data

/-- Canonical decimal index for array traversal (`part in array`). -/
def parseIndex (s : String) : Option Nat :=
  if s ≠ "" ∧ s.data.all Char.isDigit then
    some (s.data.foldl (fun n c => n * 10 + (c.toNat - 48)) 0)
  else none

/-- The property walk of `extractJsonPath`: `current == null` yields
undefined, an object step requires the property to exist, a non-object
step fails. -/
def walkPath : JsValue → List String → Option JsValue
  | cur, [] => some cur
  | cur, part :: rest =>
    match cur with
    | .null => none
    | .obj fields =>
      match fields.find? (fun f => f.1 == part) with
      | some f => walkPath f.2 rest
      | none => none
    | .arr elems =>
      match parseIndex part with
      | some i =>
        match elems[i]? with
        | some v => walkPath v rest
        | none => none
      | none => none
    | _ => none

/-- Model of `extractJsonPath`: falsy input or empty path returns the
input; a string input is JSON-parsed first (parse failure yields
undefined); then the cleaned, dot-split path is walked. -/
def extractJsonPath (parse : String → Option JsValue) (obj : JsValue)
    (path : String) : Option JsValue :=
  if jsTruthy obj = false ∨ path = "" then some obj
  else
    match obj with
    | .str s =>
      match parse s with
      | some v => walkPath v (splitOnDot (cleanPath path))
      | none => none
    | v => walkPath v (splitOnDot (cleanPath path))

/-- C9: with a `JSON.parse` oracle that parses the token body to the
expected object and fails on the non-JSON body, extracting
`$.access_token` from the body string yields `abc`, and from a body that
does not parse yields the empty string. -/
theorem c9_jsonpath_extraction (parse : String → Option JsValue)
    (h1 : parse "\x7b\"access_token\":\"abc\"\x7d"
      = some (.obj [("access_token", .str "abc")]))
    (h2 : parse "not json" = none) :
    stringifyExtract (extractJsonPath parse (.str "\x7b\"access_token\":\"abc\"\x7d")
      "$.access_token") = "abc" ∧
    stringifyExtract (extractJsonPath parse (.str "not json") "$.access_token") = "" := by
  constructor
  · show stringifyExtract
      (if jsTruthy (.str "\x7b\"access_token\":\"abc\"\x7d") = false ∨ "$.access_token" = ""
       then some (.str "\x7b\"access_token\":\"abc\"\x7d")
       else match parse "\x7b\"access_token\":\"abc\"\x7d" with
         | some v => walkPath v (splitOnDot (cleanPath "$.access_token"))
         | none => none) = "abc"
    rw [if_neg (by decide), h1]
    decide
  · show stringifyExtract
      (if jsTruthy (.str "not json") = false ∨ "$.access_token" = ""
       then some (.str "not json")
       else match parse "not json" with
         | some v => walkPath v (splitOnDot (cleanPath "$.access_token"))
         | none => none) = ""
    rw [if_neg (by decide), h2]
    rfl

/-- Witness for C9 with a concrete parse oracle defined by cases. -/
theorem c9_witness :
    ((fun s => if s = "\x7b\"access_token\":\"abc\"\x7d"
        then some (JsValue.obj [("access_token", JsValue.str "abc")])
        else none) "\x7b\"access_token\":\"abc\"\x7d"
      = some (JsValue.obj [("access_token", JsValue.str "abc")])) ∧
    ((fun s => if s = "\x7b\"access_token\":\"abc\"\x7d"
        then some (JsValue.obj [("access_token", JsValue.str "abc")])
        else none) "not json" = none) ∧
    stringifyExtract (extractJsonPath
      (fun s => if s = "\x7b\"access_token\":\"abc\"\x7d"
        then some (JsValue.obj [("access_token", JsValue.str "abc")])
        else none)
      (.str "\x7b\"access_token\":\"abc\"\x7d") "$.access_token") = "abc" ∧
    stringifyExtract (extractJsonPath
      (fun s => if s = "\x7b\"access_token\":\"abc\"\x7d"
        then some (JsValue.obj [("access_token", JsValue.str "abc")])
        else none)
      (.str "not json") "$.access_token") = "" := by
  refine ⟨rfl, rfl, ?_, ?_⟩
  · exact (c9_jsonpath_extraction _ rfl rfl).1
  · exact (c9_jsonpath_extraction _ rfl rfl).2

/-! ## The chain resolver (response directive)

Model of the modular response-template processor: `shouldUseCache` /
`shouldCacheResult`, the cache key, the in-memory cache driver's
entry/ttl semantics, and the mutually recursive
`resolveResponseTemplate` / `client.request` / `ParseScriptTemplate`
loop.  `client.request(path)` is modelled by `execRequest`: it first
processes the request's embedded response templates in order
(`processDeps`, whose per-template try/catch turns directive errors into
warnings and continues — the engine's per-directive isolation), then
performs the HTTP call through the environment's `response` oracle.
Every recursive call costs one fuel unit; an `outOfFuel` error marks an
under-fuelled run. -/

/-- The four expiry modes of the enhanced template format. -/
inductive ExpiryMode where
  | whenExpired
  | never
  | noHistory
  | always
deriving DecidableEq

/-- The literal of each mode, for the cache key. -/
def expiryModeStr : ExpiryMode → String
  | .whenExpired => "when-expired"
  | .never => "never"
  | .noHistory => "no-history"
  | .always => "always"

/-- A parsed response template (`ResponseTemplate`). -/
structure ResponseTemplate where
  requestId : String
  field : String
  jsonPath : Option String := none
  xPath : Option String := none
  expiryMode : Option ExpiryMode := none
  maxAge : Option Nat := none
deriving DecidableEq

/-- JavaScript truthiness of the optional `maxAge` number (`0` is falsy). -/
def natTruthy : Option Nat → Bool
  | some n => n ≠ 0
  | none => false

/-- Model of `shouldUseCache`: `never` always reads, `always` and
`no-history` never read, `when-expired` (also when the mode is absent)
reads only when `maxAge` was supplied. -/
def shouldUseCache (expiryMode : Option ExpiryMode) (maxAge : Option Nat) : Bool :=
  match expiryMode with
  | some .never => true
  | some .always => false
  | some .noHistory => false
  | some .whenExpired => natTruthy maxAge
  | none => natTruthy maxAge

/-- Model of `shouldCacheResult`: `never` and `always` always write,
`no-history` never writes, `when-expired` (default) writes only when
`maxAge` was supplied. -/
def shouldCacheResult (expiryMode : Option ExpiryMode) (maxAge : Option Nat) : Bool :=
  match expiryMode with
  | some .never => true
  | some .always => true
  | some .noHistory => false
  | some .whenExpired => natTruthy maxAge
  | none => natTruthy maxAge

/-- A cache entry of the in-memory driver (value, creation time, optional
absolute expiry, all times in milliseconds). -/
structure CEntry where
  value : String
  createdAt : Nat
  expiresAt : Option Nat
deriving DecidableEq

/-- Expiry test of the driver's `get`: an entry with a truthy `expiresAt`
at or past `now` is expired. -/
def entryExpired (e : CEntry) (now : Nat) : Bool :=
  match e.expiresAt with
  | some x => if x = 0 then false else decide (x ≤ now)
  | none => false

/-- Raw map lookup of the driver (newest entry first). -/
def cacheFind (cache : List (String × CEntry)) (k : String) : Option CEntry :=
  (cache.find? (fun p => p.1 == k)).map (fun p => p.2)

/-- The driver's `get`: a present but expired entry reads as absent. -/
def cacheGetEntry (cache : List (String × CEntry)) (now : Nat) (k : String) :
    Option CEntry :=
  match cacheFind cache k with
  | some e => if entryExpired e now then none else some e
  | none => none

/-- Model of `client.hasCachedValue`. -/
def hasCachedValue (cache : List (String × CEntry)) (now : Nat) (k : String) : Bool :=
  (cacheGetEntry cache now k).isSome

/-- Model of `client.getCachedValue` (the entry's stored value). -/
def getCachedValue (cache : List (String × CEntry)) (now : Nat) (k : String) :
    Option String :=
  (cacheGetEntry cache now k).map (fun e => e.value)

/-- Model of `client.setCachedValue` through the driver's `set`: the new
entry (with `expiresAt = now + ttl` when a ttl is given) shadows any
previous one. -/
def setCachedValue (cache : List (String × CEntry)) (k v : String) (now : Nat)
    (ttl : Option Nat) : List (String × CEntry) :=
  (k, CEntry.mk v now (ttl.map (fun t => now + t))) :: cache

/-- The mutable client state a resolution session threads: the cache and
this client's execution stack. -/
structure ClientState where
  cache : List (String × CEntry)
  stack : List String
deriving DecidableEq

/-- The response object the extractor consumes. -/
structure ChainResponse where
  body : String
  json : Option JsValue := none
  status : Int := 200
  statusText : String := ""
  url : String := ""
  method : String := ""
  duration : Int := 0
  headers : List (String × String) := []

/-- The static side of a resolution session: the collection (`pathById`,
each request's embedded response templates in textual order), the HTTP
executor (`response`, `none` modelling a failed call), and the external
`JSON.parse` / XPath collaborators. -/
structure ChainEnv where
  pathById : String → Option String
  deps : String → List ResponseTemplate
  response : String → Option ChainResponse
  jsonParse : String → Option JsValue
  xpathExtract : JsValue → String → Option JsValue

/-- Errors a chain resolution can raise. -/
inductive ChainError where
  | requestNotFound (id : String)
  | circularDependency (id : String)
  | requestFailed (path : String)
  | outOfFuel
deriving DecidableEq

/-- Outcome of one chain computation: its result, the state after it, the
paths passed to `client.request` (in call order), and the directive
errors the template scan caught and logged. -/
structure ChainOut (α : Type) where
  result : Except ChainError α
  state : ClientState
  invoked : List String
  warnings : List ChainError

/-- JavaScript `a || b` on an optional string against a fallback. -/
def orTruthy (a : Option String) (b : String) : String :=
  match a with
  | some s => if s = "" then b else s
  | none => b

/-- Model of the cache key
`response_template:<id>:<field>:<jsonPath || xPath || none>:<mode || default>`. -/
def cacheKey (t : ResponseTemplate) : String :=
  "response_template:" ++ t.requestId ++ ":" ++ t.field ++ ":"
    ++ orTruthy t.jsonPath (orTruthy t.xPath "none") ++ ":"
    ++ (match t.expiryMode with
        | some m => expiryModeStr m
        | none => "default")

/-- Header lookup with the fallback
`response.headers[field] || response.headers[field.toLowerCase()]`. -/
def headerValue (hs : List (String × String)) (field : String) : Option JsValue :=
  match (hs.find? (fun p => p.1 == field)).map (fun p => p.2) with
  | some s =>
    if s = "" then ((hs.find? (fun p => p.1 == strToLower field)).map
      (fun p => JsValue.str p.2))
    else some (.str s)
  | none =>
    (hs.find? (fun p => p.1 == strToLower field)).map (fun p => JsValue.str p.2)

/-- The `switch (field.toLowerCase())` of `processResponseForTemplate`. -/
def extractField (resp : ChainResponse) (field : String) : Option JsValue :=
  if strToLower field = "body" then some (.str resp.body)
  else if strToLower field = "json" then resp.json
  else if strToLower field = "status" then some (.num resp.status)
  else if strToLower field = "statustext" then some (.str resp.statusText)
  else if strToLower field = "url" then some (.str resp.url)
  else if strToLower field = "method" then some (.str resp.method)
  else if strToLower field = "duration" then some (.num resp.duration)
  else headerValue resp.headers field

/-- Truthiness of an optional path string. -/
def optStrTruthy : Option String → Bool
  | some s => s ≠ ""
  | none => false

/-- The conditional JSONPath / XPath application
(`if (jsonPath && extractedValue) ... else if (xPath && extractedValue)`). -/
def applyPathExtraction (env : ChainEnv) (t : ResponseTemplate)
    (v : Option JsValue) : Option JsValue :=
  match v with
  | some x =>
    if optStrTruthy t.jsonPath && jsTruthy x then
      extractJsonPath env.jsonParse x (t.jsonPath.getD "")
    else if optStrTruthy t.xPath && jsTruthy x then
      env.xpathExtract x (t.xPath.getD "")
    else some x
  | none => none

/-- Model of `processResponseForTemplate`: extract the field, apply the
path, stringify (`undefined` becomes `""`), and cache the string when the
write policy says so, with ttl `maxAge * 1000` when a truthy `maxAge` was
supplied. -/
def processResponseForTemplate (env : ChainEnv) (now : Nat)
    (resp : ChainResponse) (t : ResponseTemplate) (key : String)
    (s : ClientState) : String × ClientState :=
  let stringValue := stringifyExtract (applyPathExtraction env t (extractField resp t.field))
  if shouldCacheResult t.expiryMode t.maxAge then
    let ttl : Option Nat :=
      match t.maxAge with
      | some a => if a = 0 then none else some (a * 1000)
      | none => none
    (stringValue, ClientState.mk (setCachedValue s.cache key stringValue now ttl) s.stack)
  else (stringValue, s)

/-- The cache consultation at the top of `resolveResponseTemplate`: read
only when the policy allows and a valid entry exists, and treat a falsy
(empty-string) stored value as a miss. -/
def cacheHit (t : ResponseTemplate) (s : ClientState) (now : Nat) : Option String :=
  if shouldUseCache t.expiryMode t.maxAge && hasCachedValue s.cache now (cacheKey t) then
    match getCachedValue s.cache now (cacheKey t) with
    | some v => if v = "" then none else some v
    | none => none
  else none

mutual

/-- Fuel-bounded model of `resolveResponseTemplate`: cache consultation,
path lookup by id, the circular-dependency guard against this client's
execution stack, then push the id, run the target request, pop the id on
both exits, and extract/cache the value on success. -/
def resolveResponseTemplate (env : ChainEnv) (now : Nat) :
    Nat → ResponseTemplate → ClientState → ChainOut String
  | 0, _, s => ChainOut.mk (.error .outOfFuel) s [] []
  | fuel + 1, t, s =>
    match cacheHit t s now with
    | some v => ChainOut.mk (.ok v) s [] []
    | none =>
      match env.pathById t.requestId with
      | none => ChainOut.mk (.error (.requestNotFound t.requestId)) s [] []
      | some path =>
        if t.requestId ∈ s.stack then
          ChainOut.mk (.error (.circularDependency t.requestId)) s [] []
        else
          let out := execRequest env now fuel path
            (ClientState.mk s.cache (t.requestId :: s.stack))
          let s2 := ClientState.mk out.state.cache (out.state.stack.erase t.requestId)
          match out.result with
          | .error e => ChainOut.mk (.error e) s2 (path :: out.invoked) out.warnings
          | .ok resp =>
            let pr := processResponseForTemplate env now resp t (cacheKey t) s2
            ChainOut.mk (.ok pr.1) pr.2 (path :: out.invoked) out.warnings

/-- Fuel-bounded model of `client.request(path)`: resolve the request's
embedded templates first, then perform the HTTP call. -/
def execRequest (env : ChainEnv) (now : Nat) :
    Nat → String → ClientState → ChainOut ChainResponse
  | 0, _, s => ChainOut.mk (.error .outOfFuel) s [] []
  | fuel + 1, path, s =>
    let d := processDeps env now fuel (env.deps path) s
    match env.response path with
    | none => ChainOut.mk (.error (.requestFailed path)) d.state d.invoked d.warnings
    | some resp => ChainOut.mk (.ok resp) d.state d.invoked d.warnings

/-- Fuel-bounded model of the template scan of `ParseScriptTemplate` /
`processTemplateString` over the request's response templates: each
directive is resolved in order, and a failing directive is caught — its
error is logged as a warning, its span left unchanged — before the scan
continues. -/
def processDeps (env : ChainEnv) (now : Nat) :
    Nat → List ResponseTemplate → ClientState → ChainOut Unit
  | _, [], s => ChainOut.mk (.ok ()) s [] []
  | 0, _ :: _, s => ChainOut.mk (.ok ()) s [] [.outOfFuel]
  | fuel + 1, t :: rest, s =>
    let o := resolveResponseTemplate env now fuel t s
    let w : List ChainError :=
      match o.result with
      | .error e => [e]
      | .ok _ => []
    let r := processDeps env now fuel rest o.state
    ChainOut.mk (.ok ()) r.state (o.invoked ++ r.invoked) (o.warnings ++ w ++ r.warnings)

end

theorem cacheFind_head (k : String) (e : CEntry) (c : List (String × CEntry)) :
    cacheFind ((k, e) :: c) k = some e := by
  simp [cacheFind]

theorem cacheHit_none_of_find_none (t : ResponseTemplate) (s : ClientState)
    (now : Nat) (hf : cacheFind s.cache (cacheKey t) = none) :
    cacheHit t s now = none := by
  simp [cacheHit, hasCachedValue, cacheGetEntry, hf]

theorem cacheHit_none_of_noUse (t : ResponseTemplate) (s : ClientState)
    (now : Nat) (hu : shouldUseCache t.expiryMode t.maxAge = false) :
    cacheHit t s now = none := by
  simp [cacheHit, hu]

theorem cacheHit_some_of_entry (t : ResponseTemplate) (s : ClientState)
    (now : Nat) (e : CEntry) (hu : shouldUseCache t.expiryMode t.maxAge = true)
    (hf : cacheFind s.cache (cacheKey t) = some e)
    (hne : entryExpired e now = false) (hv : ¬ e.value = "") :
    cacheHit t s now = some e.value := by
  simp [cacheHit, hasCachedValue, getCachedValue, cacheGetEntry, hu, hf, hne, hv]

theorem cacheHit_none_of_empty_value (t : ResponseTemplate) (s : ClientState)
    (now : Nat) (e : CEntry) (hf : cacheFind s.cache (cacheKey t) = some e)
    (hne : entryExpired e now = false) (hv : e.value = "") :
    cacheHit t s now = none := by
  simp [cacheHit, hasCachedValue, getCachedValue, cacheGetEntry, hf, hne, hv]

theorem resolveRT_hit (env : ChainEnv) (now fuel : Nat) (t : ResponseTemplate)
    (s : ClientState) (v : String) (hhit : cacheHit t s now = some v) :
    resolveResponseTemplate env now (fuel + 1) t s = ChainOut.mk (.ok v) s [] [] := by
  simp [resolveResponseTemplate, hhit]

theorem resolveRT_notfound (env : ChainEnv) (now fuel : Nat)
    (t : ResponseTemplate) (s : ClientState)
    (hmiss : cacheHit t s now = none) (hp : env.pathById t.requestId = none) :
    resolveResponseTemplate env now (fuel + 1) t s
      = ChainOut.mk (.error (.requestNotFound t.requestId)) s [] [] := by
  simp [resolveResponseTemplate, hmiss, hp]

theorem resolveRT_circular (env : ChainEnv) (now fuel : Nat)
    (t : ResponseTemplate) (s : ClientState) (p : String)
    (hmiss : cacheHit t s now = none) (hp : env.pathById t.requestId = some p)
    (hin : t.requestId ∈ s.stack) :
    resolveResponseTemplate env now (fuel + 1) t s
      = ChainOut.mk (.error (.circularDependency t.requestId)) s [] [] := by
  simp [resolveResponseTemplate, hmiss, hp, hin]

theorem resolveRT_miss_unfold (env : ChainEnv) (now fuel : Nat)
    (t : ResponseTemplate) (s : ClientState) (p : String)
    (hmiss : cacheHit t s now = none) (hp : env.pathById t.requestId = some p)
    (hnin : t.requestId ∉ s.stack) :
    resolveResponseTemplate env now (fuel + 1) t s =
      (let out := execRequest env now fuel p
        (ClientState.mk s.cache (t.requestId :: s.stack))
       let s2 := ClientState.mk out.state.cache (out.state.stack.erase t.requestId)
       match out.result with
       | .error e => ChainOut.mk (.error e) s2 (p :: out.invoked) out.warnings
       | .ok resp =>
         let pr := processResponseForTemplate env now resp t (cacheKey t) s2
         ChainOut.mk (.ok pr.1) pr.2 (p :: out.invoked) out.warnings) := by
  simp [resolveResponseTemplate, hmiss, hp, hnin]

theorem execRequest_not_circular (env : ChainEnv) (now fuel : Nat)
    (p : String) (s : ClientState) (id : String) :
    (execRequest env now fuel p s).result ≠ .error (.circularDependency id) := by
  match fuel with
  | 0 => simp [execRequest]
  | f + 1 =>
    cases hr : env.response p with
    | none => simp [execRequest, hr]
    | some resp => simp [execRequest, hr]

/-- A resolution whose target id is not on this client's stack can never
fail with a circular-dependency error for that id: nested re-entry errors
are caught by the template scan and only logged. -/
theorem resolveRT_not_circular (env : ChainEnv) (now fuel : Nat)
    (t : ResponseTemplate) (s : ClientState) (hnin : t.requestId ∉ s.stack) :
    (resolveResponseTemplate env now fuel t s).result
      ≠ .error (.circularDependency t.requestId) := by
  match fuel with
  | 0 => simp [resolveResponseTemplate]
  | f + 1 =>
    cases hh : cacheHit t s now with
    | some v => rw [resolveRT_hit env now f t s v hh]; simp
    | none =>
      cases hp : env.pathById t.requestId with
      | none => rw [resolveRT_notfound env now f t s hh hp]; simp
      | some p =>
        rw [resolveRT_miss_unfold env now f t s p hh hp hnin]
        cases hor : (execRequest env now f p
            (ClientState.mk s.cache (t.requestId :: s.stack))).result with
        | ok resp => simp [hor]
        | error e =>
          simp only [hor]
          intro hcontra
          simp only [ChainOut.mk.injEq, Except.error.injEq] at hcontra
          exact execRequest_not_circular env now f p
            (ClientState.mk s.cache (t.requestId :: s.stack)) t.requestId
            (by rw [hor, hcontra])

/-! ## C2: the two-request cycle -/

/-- Template referencing request `X`'s body. -/
def tX : ResponseTemplate := { requestId := "X", field := "body" }

/-- Template referencing request `Y`'s body. -/
def tY : ResponseTemplate := { requestId := "Y", field := "body" }

/-- Response of request `X`. -/
def respX : ChainResponse := { body := "bx" }

/-- Response of request `Y`. -/
def respY : ChainResponse := { body := "by" }

/-- A collection with two requests `X` and `Y` whose templates reference
each other. -/
def cyc : ChainEnv :=
  { pathById := fun id => if id = "X" then some "X"
      else if id = "Y" then some "Y" else none
    deps := fun path => if path = "X" then [tY]
      else if path = "Y" then [tX] else []
    response := fun path => if path = "X" then some respX
      else if path = "Y" then some respY else none
    jsonParse := fun _ => none
    xpathExtract := fun _ _ => none }

/-- C2: a response directive whose target id is already on the session's
in-flight stack fails immediately with a circular-dependency error naming
that id — no request is invoked, the state is untouched; and on the
mutually referencing pair `X`/`Y`, resolving `X` terminates with the same
result for every fuel at least 9: the re-entered directive's
`circularDependency Y` error is raised (and caught by the scan as a
warning), the stack ends empty, and resolution does not hang. -/
theorem c2_circular_detection :
    (∀ (env : ChainEnv) (now fuel : Nat) (t : ResponseTemplate)
       (s : ClientState) (p : String),
      cacheHit t s now = none → env.pathById t.requestId = some p →
      t.requestId ∈ s.stack →
      resolveResponseTemplate env now (fuel + 1) t s
        = ChainOut.mk (.error (.circularDependency t.requestId)) s [] []) ∧
    (∀ k, execRequest cyc 0 (k + 9) "X" (ClientState.mk [] [])
      = ChainOut.mk (.ok respX) (ClientState.mk [] []) ["Y", "X"]
          [.circularDependency "Y"]) :=
  ⟨fun env now fuel t s p hmiss hp hin =>
    resolveRT_circular env now fuel t s p hmiss hp hin,
   fun _ => rfl⟩

/-- Witness for C2: the directive targeting `Y` with `Y` in flight fails
with the circular error without executing anything, and the concrete
cycle run at fuel 9. -/
theorem c2_witness :
    resolveResponseTemplate cyc 0 (4 + 1) tY (ClientState.mk [] ["Y"])
      = ChainOut.mk (.error (.circularDependency "Y")) (ClientState.mk [] ["Y"]) [] [] ∧
    execRequest cyc 0 (0 + 9) "X" (ClientState.mk [] [])
      = ChainOut.mk (.ok respX) (ClientState.mk [] []) ["Y", "X"]
          [.circularDependency "Y"] := by
  constructor
  · exact c2_circular_detection.1 cyc 0 4 tY (ClientState.mk [] ["Y"]) "Y"
      (by decide) rfl (by decide)
  · exact c2_circular_detection.2 0

instance {ε α : Type} [DecidableEq ε] [DecidableEq α] : DecidableEq (Except ε α) :=
  fun a b =>
    match a, b with
    | Except.ok x, Except.ok y =>
      if h : x = y then isTrue (by rw [h])
      else isFalse (fun hc => h (Except.ok.inj hc))
    | Except.ok _, Except.error _ => isFalse (fun hc => Except.noConfusion hc)
    | Except.error _, Except.ok _ => isFalse (fun hc => Except.noConfusion hc)
    | Except.error e, Except.error f =>
      if h : e = f then isTrue (by rw [h])
      else isFalse (fun hc => h (Except.error.inj hc))

/-! ## C1: expiry modes `never` and `always` -/

/-- A `never`-mode template on request `A` that also carries
`maxAge = 1` second. -/
def tNev : ResponseTemplate :=
  { requestId := "A", field := "body", expiryMode := some .never, maxAge := some 1 }

/-- A one-request collection whose request `A` returns body `tok`. -/
def nevEnv : ChainEnv :=
  { pathById := fun id => if id = "A" then some "A" else none
    deps := fun _ => []
    response := fun path => if path = "A" then some { body := "tok" } else none
    jsonParse := fun _ => none
    xpathExtract := fun _ _ => none }

/-- C1 counterexample: with `expiryMode = never` and `maxAge = 1`, the
first invocation executes `A` and caches `tok` with a one-second ttl; a
second invocation 2000 ms later — a time window the claim says is
irrelevant — finds the entry expired and re-invokes the dependency. -/
theorem c1_counterexample :
    shouldUseCache tNev.expiryMode tNev.maxAge = true ∧
    (resolveResponseTemplate nevEnv 0 5 tNev (ClientState.mk [] [])).result = .ok "tok" ∧
    (resolveResponseTemplate nevEnv 0 5 tNev (ClientState.mk [] [])).invoked = ["A"] ∧
    (resolveResponseTemplate nevEnv 2000 5 tNev
      (resolveResponseTemplate nevEnv 0 5 tNev (ClientState.mk [] [])).state).invoked
      = ["A"] := by
  exact ⟨rfl, by decide, by decide, by decide⟩

theorem processResponse_never_nomax (env : ChainEnv) (now : Nat)
    (resp : ChainResponse) (t : ResponseTemplate) (key : String)
    (s : ClientState) (hmode : t.expiryMode = some .never)
    (hage : t.maxAge = none) :
    processResponseForTemplate env now resp t key s
      = (stringifyExtract (applyPathExtraction env t (extractField resp t.field)),
         ClientState.mk
           ((key, CEntry.mk
              (stringifyExtract (applyPathExtraction env t (extractField resp t.field)))
              now none) :: s.cache)
           s.stack) := by
  simp [processResponseForTemplate, hmode, hage, shouldCacheResult, setCachedValue]

/-- C1 (amended): with `expiryMode = never` and no `maxAge`, a first
invocation from a clean cache slot that yields a non-empty value caches
it without expiry, and a second invocation with the same coordinates at
any later time returns that cached value without re-invoking the
dependency; with `expiryMode = always`, every invocation that reaches the
execution stage re-invokes the dependency regardless of any cache
content. -/
theorem c1_never_always_amended :
    (∀ (env : ChainEnv) (now1 fuel1 : Nat) (t : ResponseTemplate)
       (s0 : ClientState) (p v : String),
      t.expiryMode = some .never → t.maxAge = none →
      cacheFind s0.cache (cacheKey t) = none →
      env.pathById t.requestId = some p →
      t.requestId ∉ s0.stack →
      (resolveResponseTemplate env now1 (fuel1 + 1) t s0).result = .ok v →
      ¬ v = "" →
      ∀ (now2 fuel2 : Nat),
        resolveResponseTemplate env now2 (fuel2 + 1) t
            (resolveResponseTemplate env now1 (fuel1 + 1) t s0).state
          = ChainOut.mk (.ok v)
              (resolveResponseTemplate env now1 (fuel1 + 1) t s0).state [] []) ∧
    (∀ (env : ChainEnv) (now fuel : Nat) (t : ResponseTemplate)
       (s : ClientState) (p : String),
      t.expiryMode = some .always →
      env.pathById t.requestId = some p →
      t.requestId ∉ s.stack →
      ∃ rest, (resolveResponseTemplate env now (fuel + 1) t s).invoked = p :: rest) := by
  constructor
  · intro env now1 fuel1 t s0 p v hmode hage hclean hp hnin hres hv now2 fuel2
    have hmiss : cacheHit t s0 now1 = none :=
      cacheHit_none_of_find_none t s0 now1 hclean
    have hu := resolveRT_miss_unfold env now1 fuel1 t s0 p hmiss hp hnin
    cases hor : (execRequest env now1 fuel1 p
        (ClientState.mk s0.cache (t.requestId :: s0.stack))).result with
    | error e =>
      rw [hu] at hres
      simp [hor] at hres
    | ok resp =>
      have hpr := processResponse_never_nomax env now1 resp t (cacheKey t)
        (ClientState.mk
          (execRequest env now1 fuel1 p
            (ClientState.mk s0.cache (t.requestId :: s0.stack))).state.cache
          ((execRequest env now1 fuel1 p
            (ClientState.mk s0.cache (t.requestId :: s0.stack))).state.stack.erase
            t.requestId))
        hmode hage
      have hval : stringifyExtract (applyPathExtraction env t (extractField resp t.field)) = v := by
        rw [hu] at hres
        simp only [hor, hpr] at hres
        exact Except.ok.inj hres
      have hstate : (resolveResponseTemplate env now1 (fuel1 + 1) t s0).state
          = ClientState.mk
              ((cacheKey t, CEntry.mk v now1 none)
                :: (execRequest env now1 fuel1 p
                  (ClientState.mk s0.cache (t.requestId :: s0.stack))).state.cache)
              ((execRequest env now1 fuel1 p
                (ClientState.mk s0.cache (t.requestId :: s0.stack))).state.stack.erase
                t.requestId) := by
        rw [hu]
        simp [hor, hpr, hval]
      have hfind : cacheFind
          (resolveResponseTemplate env now1 (fuel1 + 1) t s0).state.cache
          (cacheKey t) = some (CEntry.mk v now1 none) := by
        rw [hstate]
        exact cacheFind_head (cacheKey t) (CEntry.mk v now1 none) _
      have hhit2 : cacheHit t (resolveResponseTemplate env now1 (fuel1 + 1) t s0).state now2
          = some v :=
        cacheHit_some_of_entry t _ now2 (CEntry.mk v now1 none)
          (by rw [hmode]; rfl) hfind rfl hv
      exact resolveRT_hit env now2 fuel2 t _ v hhit2
  · intro env now fuel t s p hmode hp hnin
    have hmiss : cacheHit t s now = none :=
      cacheHit_none_of_noUse t s now (by rw [hmode]; rfl)
    rw [resolveRT_miss_unfold env now fuel t s p hmiss hp hnin]
    cases hor : (execRequest env now fuel p
        (ClientState.mk s.cache (t.requestId :: s.stack))).result with
    | error e =>
      exact ⟨(execRequest env now fuel p
        (ClientState.mk s.cache (t.requestId :: s.stack))).invoked, by simp [hor]⟩
    | ok resp =>
      exact ⟨(execRequest env now fuel p
        (ClientState.mk s.cache (t.requestId :: s.stack))).invoked, by simp [hor]⟩

/-- Witness for C1 (amended): on the one-request collection, a `never`
directive without `maxAge` executes once, and a later invocation at an
arbitrary time returns the cached `tok` with nothing invoked; an `always`
directive invokes `A` every time. -/
theorem c1_witness :
    (resolveResponseTemplate nevEnv 0 (4 + 1)
        { requestId := "A", field := "body", expiryMode := some .never }
        (ClientState.mk [] [])).result = .ok "tok" ∧
    resolveResponseTemplate nevEnv 987654321 (0 + 1)
        { requestId := "A", field := "body", expiryMode := some .never }
        ((resolveResponseTemplate nevEnv 0 (4 + 1)
          { requestId := "A", field := "body", expiryMode := some .never }
          (ClientState.mk [] [])).state)
      = ChainOut.mk (.ok "tok")
          ((resolveResponseTemplate nevEnv 0 (4 + 1)
            { requestId := "A", field := "body", expiryMode := some .never }
            (ClientState.mk [] [])).state) [] [] ∧
    (∃ rest, (resolveResponseTemplate nevEnv 5 (0 + 1)
        { requestId := "A", field := "body", expiryMode := some .always }
        (ClientState.mk [] [])).invoked = "A" :: rest) := by
  refine ⟨by decide, ?_, ?_⟩
  · exact c1_never_always_amended.1 nevEnv 0 4
      { requestId := "A", field := "body", expiryMode := some .never }
      (ClientState.mk [] []) "A" "tok" rfl rfl (by decide) rfl (by decide)
      (by decide) (by decide) 987654321 0
  · exact c1_never_always_amended.2 nevEnv 5 0
      { requestId := "A", field := "body", expiryMode := some .always }
      (ClientState.mk [] []) "A" rfl rfl (by decide)

/-! ## C10: a falsy cached value is a miss -/

/-- C10: when the policy permits reading and a non-expired entry exists
under the template's key but its stored value is the empty string, the
resolver does not return it — it falls through and re-invokes the target
request. -/
theorem c10_falsy_cache_miss (env : ChainEnv) (now fuel : Nat)
    (t : ResponseTemplate) (s : ClientState) (p : String) (e : CEntry)
    (hu : shouldUseCache t.expiryMode t.maxAge = true)
    (hf : cacheFind s.cache (cacheKey t) = some e)
    (hne : entryExpired e now = false)
    (hempty : e.value = "")
    (hp : env.pathById t.requestId = some p)
    (hnin : t.requestId ∉ s.stack) :
    hasCachedValue s.cache now (cacheKey t) = true ∧
    ∃ rest, (resolveResponseTemplate env now (fuel + 1) t s).invoked = p :: rest := by
  have hmiss : cacheHit t s now = none :=
    cacheHit_none_of_empty_value t s now e hf hne hempty
  constructor
  · simp [hasCachedValue, cacheGetEntry, hf, hne]
  · rw [resolveRT_miss_unfold env now fuel t s p hmiss hp hnin]
    cases hor : (execRequest env now fuel p
        (ClientState.mk s.cache (t.requestId :: s.stack))).result with
    | error e2 =>
      exact ⟨(execRequest env now fuel p
        (ClientState.mk s.cache (t.requestId :: s.stack))).invoked, by simp [hor]⟩
    | ok resp =>
      exact ⟨(execRequest env now fuel p
        (ClientState.mk s.cache (t.requestId :: s.stack))).invoked, by simp [hor]⟩

/-- Witness for C10: a `never`-mode directive over a cache that holds an
unexpired empty-string value under the exact template key still executes
request `A`. -/
theorem c10_witness :
    hasCachedValue
      [(cacheKey { requestId := "A", field := "body", expiryMode := some .never },
        CEntry.mk "" 0 none)] 7
      (cacheKey { requestId := "A", field := "body", expiryMode := some .never }) = true ∧
    ∃ rest,
      (resolveResponseTemplate nevEnv 7 (3 + 1)
        { requestId := "A", field := "body", expiryMode := some .never }
        (ClientState.mk
          [(cacheKey { requestId := "A", field := "body", expiryMode := some .never },
            CEntry.mk "" 0 none)] [])).invoked = "A" :: rest :=
  c10_falsy_cache_miss nevEnv 7 3
    { requestId := "A", field := "body", expiryMode := some .never }
    (ClientState.mk
      [(cacheKey { requestId := "A", field := "body", expiryMode := some .never },
        CEntry.mk "" 0 none)] [])
    "A" (CEntry.mk "" 0 none) rfl (by decide) rfl rfl rfl (by decide)

/-! ## C3: per-client execution stacks

The modular processor keys its execution stacks by client instance in a
weak map (`executionStacks`); `getExecutionStack` returns the stack of
the given client, creating an empty one on first use.  Client identity is
modelled by a number; the map insertion performed on first use only adds
an empty stack, so reads model it as a lookup with an empty default. -/

/-- The `executionStacks` weak map: client identity to execution stack. -/
abbrev StackMap := List (Nat × List String)

/-- Model of `getExecutionStack`: this client's stack, empty initially. -/
def getExecutionStack (m : StackMap) (c : Nat) : List String :=
  match m.find? (fun p => p.1 == c) with
  | some p => p.2
  | none => []

/-- Writing a client's stack back into the map (`executionStacks.set`). -/
def setExecutionStack (m : StackMap) (c : Nat) (st : List String) : StackMap :=
  (c, st) :: m

/-- One response-directive resolution performed by a given client against
the shared stack map: run against this client's own stack and write the
resulting stack back under the same client. -/
def resolveResponseTemplateClient (env : ChainEnv) (now fuel : Nat)
    (m : StackMap) (c : Nat) (cache : List (String × CEntry))
    (t : ResponseTemplate) : ChainOut String × StackMap :=
  let out := resolveResponseTemplate env now fuel t
    (ClientState.mk cache (getExecutionStack m c))
  (out, setExecutionStack m c out.state.stack)

theorem getExecutionStack_set_other (m : StackMap) (c1 c2 : Nat)
    (st : List String) (hne : ¬ c1 = c2) :
    getExecutionStack (setExecutionStack m c1 st) c2 = getExecutionStack m c2 := by
  have hbeq : (c1 == c2) = false := beq_eq_false_iff_ne.mpr hne
  simp [getExecutionStack, setExecutionStack, List.find?, hbeq]

/-- C3: the in-flight set is per client instance.  Writing one client's
stack never changes another client's, and a request id in flight in
client `c1`'s session never makes a different client `c2`, whose own
stack does not hold the id, fail with a circular-dependency error — for
any fuel and any cache. -/
theorem c3_per_client_stack :
    (∀ (m : StackMap) (c1 c2 : Nat) (st : List String), ¬ c1 = c2 →
      getExecutionStack (setExecutionStack m c1 st) c2 = getExecutionStack m c2) ∧
    (∀ (env : ChainEnv) (now fuel : Nat) (m : StackMap) (c1 c2 : Nat)
       (cache : List (String × CEntry)) (t : ResponseTemplate),
      ¬ c1 = c2 →
      t.requestId ∈ getExecutionStack m c1 →
      t.requestId ∉ getExecutionStack m c2 →
      (resolveResponseTemplateClient env now fuel m c2 cache t).1.result
        ≠ .error (.circularDependency t.requestId)) := by
  constructor
  · exact getExecutionStack_set_other
  · intro env now fuel m c1 c2 cache t _ _ hnin2
    exact resolveRT_not_circular env now fuel t
      (ClientState.mk cache (getExecutionStack m c2)) hnin2

/-- Witness for C3: `req_x` is in flight in client 1's session; client
2's independent resolution of the same id does not raise the circular
error (it executes and succeeds). -/
theorem c3_witness :
    getExecutionStack (setExecutionStack [(1, ["req_x"])] 1 ["req_x", "other"]) 2
      = getExecutionStack [(1, ["req_x"])] 2 ∧
    "req_x" ∈ getExecutionStack [(1, ["req_x"])] 1 ∧
    (resolveResponseTemplateClient
        { pathById := fun id => if id = "req_x" then some "P" else none
          deps := fun _ => []
          response := fun path => if path = "P" then some { body := "b" } else none
          jsonParse := fun _ => none
          xpathExtract := fun _ _ => none }
        0 3 [(1, ["req_x"])] 2 [] { requestId := "req_x", field := "body" }).1.result
      ≠ .error (.circularDependency "req_x") ∧
    (resolveResponseTemplateClient
        { pathById := fun id => if id = "req_x" then some "P" else none
          deps := fun _ => []
          response := fun path => if path = "P" then some { body := "b" } else none
          jsonParse := fun _ => none
          xpathExtract := fun _ _ => none }
        0 3 [(1, ["req_x"])] 2 [] { requestId := "req_x", field := "body" }).1.result
      = .ok "b" := by
  refine ⟨c3_per_client_stack.1 [(1, ["req_x"])] 1 2 ["req_x", "other"] (by decide),
    by decide, ?_, by decide⟩
  exact c3_per_client_stack.2
    { pathById := fun id => if id = "req_x" then some "P" else none
      deps := fun _ => []
      response := fun path => if path = "P" then some { body := "b" } else none
      jsonParse := fun _ => none
      xpathExtract := fun _ _ => none }
    0 3 [(1, ["req_x"])] 1 2 [] { requestId := "req_x", field := "body" }
    (by decide) (by decide) (by decide)
